import Mathlib

/-!
Verification development for the Arthos UPI/SMS message parsing and
categorization core (`app/utils/regex_patterns.py`,
`app/services/upi_parser.py`, `app/services/category_mapper.py`).

The Python code is shallowly embedded: Python `re` patterns are transcribed
into a small regular-expression datatype `Reg` together with a backtracking
matcher whose enumeration order mirrors CPython `re` semantics (leftmost
starting position first; alternation tries the left branch first; greedy
quantifiers prefer longer matches, lazy quantifiers shorter ones).  Python
floats are modelled as exact decimals (`PyDec`): every float reachable in
this code is parsed from a short decimal digit string, and all observable
comparisons (against decimal literals and against zero) agree with the
Python float semantics on such values.  `None` is modelled as `Option`, and
the module-global category table as an explicitly passed association list.
-/

/-- Python whitespace class `\s` (ASCII range, which is all this code meets
after its own normalization). -/
def pyWs (c : Char) : Bool :=
  c = ' ' || c = '\t' || c = '\n' || c = '\r' || c = '\x0b' || c = '\x0c'

/-- Regular expressions as transcribed from the Python pattern strings.
`cls` is a character class, `star` a greedy `*`, `lstar` a lazy `*?`,
`grp i` the `i`-th capturing group. -/
inductive Reg : Type where
  | eps : Reg
  | cls : (Char → Bool) → Reg
  | cat : Reg → Reg → Reg
  | alt : Reg → Reg → Reg
  | star : Reg → Reg
  | lstar : Reg → Reg
  | grp : Nat → Reg → Reg

/-- Captured groups of a match: pairs of group index and captured text. -/
abbrev Caps := List (Nat × List Char)

/-- Greedy iteration of a sub-matcher `mr` (the body of a `star`): try one
more repetition first (only if it consumed input — CPython likewise refuses
empty-match loops), then stopping.  `fuel` bounds the number of repetitions;
callers pass the input length, which suffices because every repetition
consumes at least one character. -/
def mstar (mr : List Char → List (List Char × Caps)) :
    Nat → List Char → List (List Char × Caps)
  | 0, s => [(s, [])]
  | fuel + 1, s =>
    ((mr s).flatMap (fun r =>
      if r.1.length < s.length then
        (mstar mr fuel r.1).map (fun r2 => (r2.1, r.2 ++ r2.2))
      else [])) ++ [(s, [])]

/-- Lazy iteration (body of `lstar`): stopping comes first, then one more
repetition. -/
def mlstar (mr : List Char → List (List Char × Caps)) :
    Nat → List Char → List (List Char × Caps)
  | 0, s => [(s, [])]
  | fuel + 1, s =>
    (s, []) :: (mr s).flatMap (fun r =>
      if r.1.length < s.length then
        (mlstar mr fuel r.1).map (fun r2 => (r2.1, r.2 ++ r2.2))
      else [])

/-- All ways `r` can match a prefix of `s`, as `(remaining suffix, captures)`
pairs listed in CPython backtracking priority order; the head is the match
`re` would pick at this starting position. -/
def mrun : Reg → List Char → List (List Char × Caps)
  | .eps, s => [(s, [])]
  | .cls p, s =>
    match s with
    | [] => []
    | c :: cs => if p c then [(cs, [])] else []
  | .cat a b, s =>
    (mrun a s).flatMap (fun r =>
      (mrun b r.1).map (fun r2 => (r2.1, r.2 ++ r2.2)))
  | .alt a b, s => mrun a s ++ mrun b s
  | .star a, s => mstar (mrun a) s.length s
  | .lstar a, s => mlstar (mrun a) s.length s
  | .grp i a, s =>
    (mrun a s).map (fun r => (r.1, (i, s.take (s.length - r.1.length)) :: r.2))

/-- `re.search`: try each starting position left to right; at the first
position admitting a match, return the captures of the highest-priority
match there. -/
def regSearch (r : Reg) (s : List Char) : Option Caps :=
  match mrun r s with
  | res :: _ => some res.2
  | [] =>
    match s with
    | [] => none
    | _ :: t => regSearch r t

/-- `match.group(i)` (all groups in the transcribed patterns are mandatory,
so a successful match always binds them). -/
def grpStr (caps : Caps) (i : Nat) : Option String :=
  (caps.find? (fun p => p.1 = i)).map (fun p => ⟨p.2⟩)

/-! Combinators mirroring the written form of the Python patterns. -/

/-- Literal character. -/
def chrR (c : Char) : Reg := .cls (fun x => x = c)

/-- Case-insensitive character (argument given in lowercase), for atoms under
the `(?i)` flag. -/
def ichr (c : Char) : Reg := .cls (fun x => x.toLower = c)

/-- Sequence of regexes. -/
def rseq (l : List Reg) : Reg := l.foldr .cat .eps

/-- Case-insensitive literal string. -/
def istr (s : String) : Reg := rseq (s.data.map ichr)

/-- Case-sensitive literal string. -/
def cstr (s : String) : Reg := rseq (s.data.map chrR)

/-- Greedy `?`. -/
def ropt (a : Reg) : Reg := .alt a .eps

/-- Greedy `+`. -/
def rplus (a : Reg) : Reg := .cat a (.star a)

/-- Lazy `+?`. -/
def lplus (a : Reg) : Reg := .cat a (.lstar a)

/-- Exactly `n` copies. -/
def rexact : Nat → Reg → Reg
  | 0, _ => .eps
  | n + 1, a => .cat a (rexact n a)

/-- Greedy at most `n` copies (more repetitions tried first). -/
def rupto : Nat → Reg → Reg
  | 0, _ => .eps
  | n + 1, a => .alt (.cat a (rupto n a)) .eps

/-- Greedy `{lo,hi}`. -/
def rrep (lo hi : Nat) (a : Reg) : Reg := .cat (rexact lo a) (rupto (hi - lo) a)

/-- `\d`. -/
def digitR : Reg := .cls Char.isDigit

/-- `\s` as a regex atom. -/
def wsR : Reg := .cls pyWs

/-- `\s+`. -/
def wsPlus : Reg := rplus wsR

/-- `\s?`. -/
def wsOpt : Reg := ropt wsR

/-- Alternation over a list (first alternative preferred). -/
def altList (l : List Reg) : Reg := l.foldr .alt (.cls (fun _ => false))

/-! Exact-decimal model of the Python floats this code produces. -/

/-- A non-negative decimal number `mant / 10 ^ exp`.  All floats in this
code are parsed from digit strings of the form `d⁺(.d*)?`; such values are
represented exactly.  Values are kept canonical (no trailing zero in `mant`
while `exp > 0`), so structural equality coincides with numeric equality. -/
structure PyDec where
  mant : Nat
  exp : Nat
deriving DecidableEq

/-- Canonicalize `m / 10 ^ e` by stripping trailing zeros. -/
def PyDec.norm : Nat → Nat → PyDec
  | m, 0 => ⟨m, 0⟩
  | m, e + 1 => if m % 10 = 0 then PyDec.norm (m / 10) e else ⟨m, e + 1⟩

instance (n : Nat) : OfNat PyDec n := ⟨⟨n, 0⟩⟩

instance : OfScientific PyDec :=
  ⟨fun m b e => if b then PyDec.norm m e else ⟨m * 10 ^ e, 0⟩⟩

instance : LE PyDec := ⟨fun a b => a.mant * 10 ^ b.exp ≤ b.mant * 10 ^ a.exp⟩

instance : LT PyDec := ⟨fun a b => a.mant * 10 ^ b.exp < b.mant * 10 ^ a.exp⟩

instance (a b : PyDec) : Decidable (a ≤ b) := Nat.decLe _ _

instance (a b : PyDec) : Decidable (a < b) := Nat.decLt _ _

/-! String helpers modelling the Python `str` methods used by the code. -/

/-- `str.strip()` over a char list. -/
def pyStripL (l : List Char) : List Char :=
  ((l.dropWhile pyWs).reverse.dropWhile pyWs).reverse

/-- `str.strip()`. -/
def pyStrip (s : String) : String := ⟨pyStripL s.data⟩

/-- Worker for `re.sub(r'\s+', ' ', text)`.  The flag records whether the
previous character was whitespace (i.e. we are inside a run that has already
emitted its single replacement space). -/
def collapseGo : Bool → List Char → List Char
  | _, [] => []
  | inRun, c :: cs =>
    if pyWs c then
      if inRun then collapseGo true cs else ' ' :: collapseGo true cs
    else c :: collapseGo false cs

/-- `re.sub(r'\s+', ' ', text)`: each maximal run of whitespace becomes a
single space. -/
def collapseWsL (l : List Char) : List Char := collapseGo false l

/-- `normalize_text` in `regex_patterns.py`: collapse whitespace runs to a
single space, then strip. -/
def normalize_text (s : String) : String := ⟨pyStripL (collapseWsL s.data)⟩

/-- `raw_text.replace('\r\n', '\n')` (leftmost non-overlapping, as in
Python). -/
def replaceCRLF : List Char → List Char
  | [] => []
  | '\r' :: '\n' :: cs => '\n' :: replaceCRLF cs
  | c :: cs => c :: replaceCRLF cs

/-- `raw_text.replace('\r', '\n')`. -/
def replaceCR : List Char → List Char
  | [] => []
  | '\r' :: cs => '\n' :: replaceCR cs
  | c :: cs => c :: replaceCR cs

/-- `date_format.replace('%y', '%Y')`. -/
def replaceYfmt : List Char → List Char
  | [] => []
  | '%' :: 'y' :: cs => '%' :: 'Y' :: replaceYfmt cs
  | c :: cs => c :: replaceYfmt cs

/-- `str.split(sep)` for a single-character separator (Python keeps empty
pieces). -/
def splitChar (sep : Char) : List Char → List (List Char)
  | [] => [[]]
  | c :: cs =>
    if c = sep then [] :: splitChar sep cs
    else
      match splitChar sep cs with
      | h :: t => (c :: h) :: t
      | [] => [[c]]

/-- Python `sub in s` substring containment. -/
def isSubL (needle hay : List Char) : Bool :=
  match hay with
  | [] => needle.isEmpty
  | _ :: cs => needle.isPrefixOf hay || isSubL needle cs

/-- `str.lower()` (ASCII). -/
def pyLower (s : String) : String := ⟨s.data.map Char.toLower⟩

/-- Numeric value of a digit list, `int(...)` on an all-digit string. -/
def digitsVal (l : List Char) : Nat :=
  l.foldl (fun acc c => acc * 10 + (c.toNat - 48)) 0

/-- `str.zfill(2)` (inputs here carry no sign). -/
def zfill2 (s : String) : String :=
  if s.length ≥ 2 then s else ⟨List.replicate (2 - s.length) '0' ++ s.data⟩

/-- `str.capitalize()`. -/
def pyCapitalize (s : String) : String :=
  match s.data with
  | [] => ""
  | c :: cs => ⟨c.toUpper :: cs.map Char.toLower⟩

/-- `str.rstrip(chars)`. -/
def rstripSet (set : List Char) (l : List Char) : List Char :=
  (l.reverse.dropWhile (fun c => c ∈ set)).reverse

/-- Python `float(...)` restricted to the strings this code can feed it
(digit runs with at most one decimal point, commas already removed); other
inputs raise `ValueError`, modelled as `none`. -/
def pyFloat? (s : String) : Option PyDec :=
  let ip := s.data.takeWhile Char.isDigit
  let rest := s.data.dropWhile Char.isDigit
  match rest with
  | [] => if ip.isEmpty then none else some ⟨digitsVal ip, 0⟩
  | '.' :: fp =>
    if fp.all Char.isDigit ∧ (ip ≠ [] ∨ fp ≠ []) then
      some (PyDec.norm (digitsVal ip * 10 ^ fp.length + digitsVal fp) fp.length)
    else none
  | _ => none

/-! The `AMOUNT_PATTERNS` list of `regex_patterns.py`, pattern by pattern. -/

/-- `\d{1,10}(?:,\d{2,3})*(?:\.\d{1,2})?` — the comma-separated numeric body
shared by most amount patterns. -/
def numComma : Reg :=
  rseq [rrep 1 10 digitR,
        .star (rseq [chrR ',', rrep 2 3 digitR]),
        ropt (rseq [chrR '.', rrep 1 2 digitR])]

/-- `\d{1,10}(?:\.\d{1,2})?` — the plain numeric body of the SBI pattern. -/
def numPlain : Reg :=
  rseq [rrep 1 10 digitR, ropt (rseq [chrR '.', rrep 1 2 digitR])]

/-- `Rs\.?` under `(?i)`. -/
def rsTok : Reg := rseq [istr "rs", ropt (chrR '.')]

/-- `(?:INR|Rs\.?|₹)` under `(?i)`. -/
def curTokI : Reg := altList [istr "inr", rsTok, chrR '₹']

/-- `(?:INR|Rs\.?|₹)` case-sensitive (the last amount pattern has no `(?i)`
flag). -/
def curTokC : Reg :=
  altList [cstr "INR", rseq [cstr "Rs", ropt (chrR '.')], chrR '₹']

/-- `(?:debited|credited)` under `(?i)`. -/
def debcred : Reg := altList [istr "debited", istr "credited"]

/-- `AMOUNT_PATTERNS`: the ordered list of amount regexes, transcribed from
the ten Python pattern strings in source order. -/
def AMOUNT_PATTERNS : List Reg :=
  [ -- (?i)(?:for\s+)?Rs\.?\s?(num)
    rseq [ropt (rseq [istr "for", wsPlus]), rsTok, wsOpt, .grp 1 numComma],
    -- (?i)INR\s?(num)\s+(?:has\s+been\s+)?(?:debited|credited)
    rseq [istr "inr", wsOpt, .grp 1 numComma, wsPlus,
          ropt (rseq [istr "has", wsPlus, istr "been", wsPlus]), debcred],
    -- (?i)(?:debited|credited)\s+(?:by\s+)?(\d{1,10}(?:\.\d{1,2})?)
    rseq [debcred, wsPlus, ropt (rseq [istr "by", wsPlus]), .grp 1 numPlain],
    -- (?i)(?:debited|credited)\s+(?:by\s+)?(?:INR|Rs\.?)\s?(num)
    rseq [debcred, wsPlus, ropt (rseq [istr "by", wsPlus]),
          altList [istr "inr", rsTok], wsOpt, .grp 1 numComma],
    -- (?i)INR\s?(num)
    rseq [istr "inr", wsOpt, .grp 1 numComma],
    -- ₹\s?(num)
    rseq [chrR '₹', wsOpt, .grp 1 numComma],
    -- (?i)payment\s+of\s+(?:INR|Rs\.?|₹)?\s?(num)
    rseq [istr "payment", wsPlus, istr "of", wsPlus, ropt curTokI, wsOpt,
          .grp 1 numComma],
    -- (?i)(?:paid|amount)\s+(?:INR|Rs\.?|₹)?\s?(num)
    rseq [altList [istr "paid", istr "amount"], wsPlus, ropt curTokI, wsOpt,
          .grp 1 numComma],
    -- (?:INR|Rs\.?|₹)\s?(num)  (case-sensitive)
    rseq [curTokC, wsOpt, .grp 1 numComma] ]

/-- Loop body of `extract_amount`: the first pattern that matches and whose
captured group (commas removed) parses as a float wins; a float
`ValueError` falls through to the next pattern. -/
def extract_amount_go : List Reg → List Char → Option PyDec
  | [], _ => none
  | p :: rest, s =>
    match regSearch p s with
    | some caps =>
      match grpStr caps 1 with
      | some g =>
        match pyFloat? ⟨g.data.filter (fun c => c ≠ ',')⟩ with
        | some v => some v
        | none => extract_amount_go rest s
      | none => extract_amount_go rest s
    | none => extract_amount_go rest s

/-- `extract_amount` in `regex_patterns.py`. -/
def extract_amount (text : String) : Option PyDec :=
  extract_amount_go AMOUNT_PATTERNS text.data

/-! The `MERCHANT_PATTERNS` cascade of `regex_patterns.py`. -/

/-- `STOP_WORDS` in `regex_patterns.py`. -/
def STOP_WORDS : List String := ["your", "account", "acct", "a/c", "upi"]

/-- `[A-Za-z0-9\s&]` under `(?i)`. -/
def mchCls : Reg := .cls (fun c => c.isAlpha || c.isDigit || pyWs c || c = '&')

/-- `([A-Z][A-Za-z0-9\s&]+?)` under `(?i)`: the lazy merchant capture group
shared by all merchant patterns. -/
def mgrp : Reg := .grp 1 (.cat (.cls Char.isAlpha) (lplus mchCls))

/-- `MERCHANT_PATTERNS`: the ordered list of merchant regexes, transcribed
from the eight Python pattern strings in source order (all carry `(?i)`). -/
def MERCHANT_PATTERNS : List Reg :=
  [ -- towards\s+(grp)(?:\s+from|\s+A/c)
    rseq [istr "towards", wsPlus, mgrp,
          altList [rseq [wsPlus, istr "from"], rseq [wsPlus, istr "a/c"]]],
    -- trf\s+to\s+(grp)(?:\s+Refno|\s+on|\s+ref|\s+from)
    rseq [istr "trf", wsPlus, istr "to", wsPlus, mgrp,
          altList [rseq [wsPlus, istr "refno"], rseq [wsPlus, istr "on"],
                   rseq [wsPlus, istr "ref"], rseq [wsPlus, istr "from"]]],
    -- (?:paid?\s+)?to\s+(grp)(?:\s+on|\s+was|\s+for|\.|\s+UPI|\s+Ref|\s+from)
    rseq [ropt (rseq [istr "pai", ropt (ichr 'd'), wsPlus]),
          istr "to", wsPlus, mgrp,
          altList [rseq [wsPlus, istr "on"], rseq [wsPlus, istr "was"],
                   rseq [wsPlus, istr "for"], chrR '.',
                   rseq [wsPlus, istr "upi"], rseq [wsPlus, istr "ref"],
                   rseq [wsPlus, istr "from"]]],
    -- at\s+(grp)(?:\s+on|\s+was|\s+for|\.|\s+Dial)
    rseq [istr "at", wsPlus, mgrp,
          altList [rseq [wsPlus, istr "on"], rseq [wsPlus, istr "was"],
                   rseq [wsPlus, istr "for"], chrR '.',
                   rseq [wsPlus, istr "dial"]]],
    -- payment\s+to\s+(grp)(?:\s+on|\s+was|\.|\s+Ref|\s+from)
    rseq [istr "payment", wsPlus, istr "to", wsPlus, mgrp,
          altList [rseq [wsPlus, istr "on"], rseq [wsPlus, istr "was"],
                   chrR '.', rseq [wsPlus, istr "ref"],
                   rseq [wsPlus, istr "from"]]],
    -- for\s+UPI\s+payment\s+to\s+(grp)(?:\s+on|\.|\s+from)
    rseq [istr "for", wsPlus, istr "upi", wsPlus, istr "payment", wsPlus,
          istr "to", wsPlus, mgrp,
          altList [rseq [wsPlus, istr "on"], chrR '.',
                   rseq [wsPlus, istr "from"]]],
    -- with\s+(grp)(?:\s+on|\s+is|\.|\s+from)
    rseq [istr "with", wsPlus, mgrp,
          altList [rseq [wsPlus, istr "on"], rseq [wsPlus, istr "is"],
                   chrR '.', rseq [wsPlus, istr "from"]]],
    -- (?:from|merchant|vendor)\s+(grp)(?:\s|\.|\s+on)
    rseq [altList [istr "from", istr "merchant", istr "vendor"], wsPlus, mgrp,
          altList [wsR, chrR '.', rseq [wsPlus, istr "on"]]] ]

/-- Loop body of `extract_merchant`: the captured name is stripped,
whitespace-collapsed and right-stripped of punctuation; captures of length
at most 2 or matching a stop word fall through to the next pattern. -/
def extract_merchant_go : List Reg → List Char → Option String
  | [], _ => none
  | p :: rest, s =>
    match regSearch p s with
    | some caps =>
      match grpStr caps 1 with
      | some g =>
        let m := pyStripL g.data
        let m := collapseWsL m
        let m := rstripSet ['.', ',', ';', ':'] m
        if 2 < m.length && !(STOP_WORDS.contains ⟨m.map Char.toLower⟩) then
          some ⟨m⟩
        else extract_merchant_go rest s
      | none => extract_merchant_go rest s
    | none => extract_merchant_go rest s

/-- `extract_merchant` in `regex_patterns.py`. -/
def extract_merchant (text : String) : Option String :=
  extract_merchant_go MERCHANT_PATTERNS text.data

/-! The `DATE_PATTERNS` cascade of `regex_patterns.py` and the slice of
`datetime.strptime` / `strftime` / `fromisoformat` it exercises. -/

/-- `(Jan|Feb|Mar|Apr|May|Jun|Jul|Aug|Sep|Oct|Nov|Dec)` (searched with
`re.IGNORECASE`). -/
def monthAlt : Reg :=
  altList [istr "jan", istr "feb", istr "mar", istr "apr", istr "may",
           istr "jun", istr "jul", istr "aug", istr "sep", istr "oct",
           istr "nov", istr "dec"]

/-- `[/\-]`. -/
def dateSep : Reg := .cls (fun c => c = '/' || c = '-')

/-- `[a-z]` under `re.IGNORECASE`. -/
def letterR : Reg := .cls Char.isAlpha

/-- `DATE_PATTERNS`: the ordered `(regex, format)` pairs, transcribed from
the six Python pairs in source order. -/
def DATE_PATTERNS : List (Reg × String) :=
  [ -- (\d{1,2})[/\-](\d{1,2})[/\-](\d{4})
    (rseq [.grp 1 (rrep 1 2 digitR), dateSep, .grp 2 (rrep 1 2 digitR),
           dateSep, .grp 3 (rexact 4 digitR)], "%d-%m-%Y"),
    -- (\d{1,2})(Mon)(\d{2,4})
    (rseq [.grp 1 (rrep 1 2 digitR), .grp 2 monthAlt,
           .grp 3 (rrep 2 4 digitR)], "%d%b%y"),
    -- (\d{1,2})\s+(Mon)[a-z]*\s+(\d{4})
    (rseq [.grp 1 (rrep 1 2 digitR), wsPlus, .grp 2 monthAlt, .star letterR,
           wsPlus, .grp 3 (rexact 4 digitR)], "%d %b %Y"),
    -- (\d{4})[/\-](\d{1,2})[/\-](\d{1,2})
    (rseq [.grp 1 (rexact 4 digitR), dateSep, .grp 2 (rrep 1 2 digitR),
           dateSep, .grp 3 (rrep 1 2 digitR)], "%Y-%m-%d"),
    -- (\d{1,2})-(Mon)-(\d{2})
    (rseq [.grp 1 (rrep 1 2 digitR), chrR '-', .grp 2 monthAlt, chrR '-',
           .grp 3 (rexact 2 digitR)], "%d-%b-%y"),
    -- (Mon)[a-z]*\s+(\d{1,2}),?\s+(\d{4})
    (rseq [.grp 1 monthAlt, .star letterR, wsPlus, .grp 2 (rrep 1 2 digitR),
           ropt (chrR ','), wsPlus, .grp 3 (rexact 4 digitR)], "%b %d %Y") ]

/-- A calendar date as produced by `datetime` parsing (the code only ever
inspects the date part; times stay midnight throughout). -/
structure PyDate where
  year : Nat
  month : Nat
  day : Nat
deriving DecidableEq

/-- Gregorian leap year, as used by `datetime`. -/
def isLeap (y : Nat) : Bool := y % 4 = 0 && (y % 100 ≠ 0 || y % 400 = 0)

/-- Days in a month, as validated by the `datetime` constructor. -/
def daysInMonth (y m : Nat) : Nat :=
  if m = 2 then (if isLeap y then 29 else 28)
  else if m = 4 || m = 6 || m = 9 || m = 11 then 30
  else 31

/-- Decimal value of an ASCII digit. -/
def dval (c : Char) : Nat := c.toNat - 48

/-- The `%d` / `%m` directive of `strptime`: greedily take two digits when
they form a value in `1..maxv` (CPython compiles `%d` to
`(3[01]|[12]\d|0[1-9]|[1-9])` and `%m` to `(1[0-2]|0[1-9]|[1-9])`),
otherwise one nonzero digit. -/
def parse21 (maxv : Nat) : List Char → Option (Nat × List Char)
  | c1 :: c2 :: rest =>
    if c1.isDigit && c2.isDigit && 1 ≤ dval c1 * 10 + dval c2 &&
        dval c1 * 10 + dval c2 ≤ maxv then
      some (dval c1 * 10 + dval c2, rest)
    else if c1.isDigit && 1 ≤ dval c1 then some (dval c1, c2 :: rest)
    else none
  | [c1] => if c1.isDigit && 1 ≤ dval c1 then some (dval c1, []) else none
  | [] => none

/-- The `%Y` directive: exactly four digits. -/
def parseY4 : List Char → Option (Nat × List Char)
  | c1 :: c2 :: c3 :: c4 :: rest =>
    if c1.isDigit && c2.isDigit && c3.isDigit && c4.isDigit then
      some (digitsVal [c1, c2, c3, c4], rest)
    else none
  | _ => none

/-- The `%y` directive: exactly two digits, expanded by `strptime` to
`2000..2068` / `1969..1999`. -/
def parseY2 : List Char → Option (Nat × List Char)
  | c1 :: c2 :: rest =>
    if c1.isDigit && c2.isDigit then
      let v := dval c1 * 10 + dval c2
      some (if v ≤ 68 then 2000 + v else 1900 + v, rest)
    else none
  | _ => none

/-- The `%b` directive on the inputs this code constructs: a three-letter
English month abbreviation, case-insensitively.  (CPython also accepts full
month names, which `extract_date` never builds: its regex groups capture
exactly three letters.) -/
def parseMonthAbbr (l : List Char) : Option (Nat × List Char) :=
  match l with
  | a :: b :: c :: rest =>
    let w : List Char := [a.toLower, b.toLower, c.toLower]
    match (["jan".data, "feb".data, "mar".data, "apr".data, "may".data,
            "jun".data, "jul".data, "aug".data, "sep".data, "oct".data,
            "nov".data, "dec".data].indexOf w) with
    | i => if i < 12 then some (i + 1, rest) else none
  | _ => none

/-- Partially parsed `strptime` fields. -/
structure StpAcc where
  y : Option Nat
  m : Option Nat
  d : Option Nat

/-- Directive-by-directive interpreter for the `strptime` formats reachable
in `extract_date` (`%d`, `%m`, `%b`, `%Y`, `%y`, literal `-`, and blanks —
CPython turns whitespace in the format into `\s+`).  Trailing unconverted
input is a `ValueError`, modelled as `none`. -/
def strptimeRun : List Char → List Char → StpAcc → Option StpAcc
  | [], [], acc => some acc
  | [], _ :: _, _ => none
  | '%' :: f :: fr, s, acc =>
    match f with
    | 'd' => (parse21 31 s).bind fun r => strptimeRun fr r.2 {acc with d := some r.1}
    | 'm' => (parse21 12 s).bind fun r => strptimeRun fr r.2 {acc with m := some r.1}
    | 'b' => (parseMonthAbbr s).bind fun r => strptimeRun fr r.2 {acc with m := some r.1}
    | 'Y' => (parseY4 s).bind fun r => strptimeRun fr r.2 {acc with y := some r.1}
    | 'y' => (parseY2 s).bind fun r => strptimeRun fr r.2 {acc with y := some r.1}
    | _ => none
  | c :: fr, s, acc =>
    if pyWs c then
      match s with
      | s0 :: _ => if pyWs s0 then strptimeRun fr (s.dropWhile pyWs) acc else none
      | [] => none
    else
      match s with
      | s0 :: srest => if s0 = c then strptimeRun fr srest acc else none
      | [] => none

/-- `datetime.strptime(s, fmt)` for the formats above, including the
calendar validation performed by the `datetime` constructor (absent fields
default to 1900-01-01 as in CPython). -/
def strptime? (s fmt : String) : Option PyDate :=
  (strptimeRun fmt.data s.data ⟨none, none, none⟩).bind fun acc =>
    let y := acc.y.getD 1900
    let m := acc.m.getD 1
    let d := acc.d.getD 1
    if 1 ≤ y && y ≤ 9999 && 1 ≤ d && d ≤ daysInMonth y m then
      some ⟨y, m, d⟩
    else none

/-- Left-pad a numeral with zeros to the given width. -/
def padNum (width n : Nat) : String :=
  let s := toString n
  if s.length ≥ width then s
  else ⟨List.replicate (width - s.length) '0' ++ s.data⟩

/-- `dt.strftime('%Y-%m-%d')`. -/
def isoFormat (d : PyDate) : String :=
  padNum 4 d.year ++ "-" ++ padNum 2 d.month ++ "-" ++ padNum 2 d.day

/-- The date-string reconstruction of `extract_date` for one successful
regex match: branch on the pattern's format template, rebuild a canonical
date string (zero-filling day/month, capitalizing the month name, expanding
two-digit years ≤ 50 to 2000s and others to 1900s), then `strptime` it and
re-render as ISO. -/
def dateFromGroups (g0 g1 g2 fmt : String) : Option String :=
  let pair : String × String :=
    if fmt = "%b %d %Y" then
      (pyCapitalize g0 ++ " " ++ zfill2 g1 ++ " " ++ g2, fmt)
    else if isSubL "%b".data (pyLower fmt).data then
      let day := zfill2 g0
      let month := pyCapitalize g1
      let yearFmt : String × String :=
        if g2.length = 2 then
          (if digitsVal g2.data ≤ 50 then "20" ++ g2 else "19" ++ g2,
           ⟨replaceYfmt fmt.data⟩)
        else (g2, fmt)
      let year := yearFmt.1
      let fmt := yearFmt.2
      if fmt = "%d%b%y" || fmt = "%d%b%Y" then (day ++ month ++ year, fmt)
      else if fmt = "%d-%b-%y" || fmt = "%d-%b-%Y" then
        (day ++ "-" ++ month ++ "-" ++ year, fmt)
      else (day ++ " " ++ month ++ " " ++ year, "%d %b %Y")
    else if fmt = "%Y-%m-%d" then
      (g0 ++ "-" ++ zfill2 g1 ++ "-" ++ zfill2 g2, fmt)
    else
      (zfill2 g0 ++ "-" ++ zfill2 g1 ++ "-" ++ g2, fmt)
  (strptime? pair.1 pair.2).map isoFormat

/-- Loop body of `extract_date`: first matching pattern whose reconstructed
date string parses wins; reconstruction/parsing failures fall through to the
next pattern. -/
def extract_date_go : List (Reg × String) → List Char → Option String
  | [], _ => none
  | (p, fmt) :: rest, s =>
    match regSearch p s with
    | some caps =>
      match grpStr caps 1, grpStr caps 2, grpStr caps 3 with
      | some g0, some g1, some g2 =>
        match dateFromGroups g0 g1 g2 fmt with
        | some iso => some iso
        | none => extract_date_go rest s
      | _, _, _ => extract_date_go rest s
    | none => extract_date_go rest s

/-- `extract_date` in `regex_patterns.py`. -/
def extract_date (text : String) : Option String :=
  extract_date_go DATE_PATTERNS text.data

/-! `upi_parser.py`: `ParsedTransaction`, `parse_message_line`,
`parse_messages`, `extract_transaction_details`. -/

/-- `datetime.fromisoformat` on the `YYYY-MM-DD` strings `extract_date`
produces (the only call site), including calendar validation. -/
def fromisoformat? (s : String) : Option PyDate :=
  match s.data with
  | [y1, y2, y3, y4, h1, m1, m2, h2, d1, d2] =>
    if y1.isDigit && y2.isDigit && y3.isDigit && y4.isDigit && h1 = '-' &&
        m1.isDigit && m2.isDigit && h2 = '-' && d1.isDigit && d2.isDigit then
      let y := digitsVal [y1, y2, y3, y4]
      let m := digitsVal [m1, m2]
      let d := digitsVal [d1, d2]
      if 1 ≤ m && m ≤ 12 && 1 ≤ d && d ≤ daysInMonth y m && 1 ≤ y && y ≤ 9999
      then some ⟨y, m, d⟩
      else none
    else none
  | _ => none

/-- The `ParsedTransaction` data class. -/
structure ParsedTransaction where
  raw_text : String
  amount : PyDec
  merchant : String
  timestamp : Option PyDate
deriving DecidableEq

/-- The `ParsedTransaction.__init__` constructor: `merchant or "Unknown"`
substitutes the sentinel for `None` (and for the falsy empty string). -/
def ParsedTransaction.make (raw_text : String) (amount : PyDec)
    (merchant : Option String) (timestamp : Option PyDate) :
    ParsedTransaction :=
  { raw_text := raw_text
    amount := amount
    merchant :=
      match merchant with
      | some m => if m = "" then "Unknown" else m
      | none => "Unknown"
    timestamp := timestamp }

/-- `parse_message_line` in `upi_parser.py`: normalize; reject empty lines;
require a positive extracted amount; merchant and date are optional, and a
date string that fails `fromisoformat` leaves the timestamp `None`. -/
def parse_message_line (line : String) : Option ParsedTransaction :=
  let nline := normalize_text line
  if nline = "" then none
  else
    match extract_amount nline with
    | none => none
    | some amount =>
      if amount ≤ 0 then none
      else
        let merchant := extract_merchant nline
        let timestamp :=
          match extract_date nline with
          | some ds => fromisoformat? ds
          | none => none
        some (ParsedTransaction.make nline amount merchant timestamp)

/-- Body of the per-line loop of `parse_messages`, applied to a line that
already passed the strip/minimum-length filter: lines holding a semicolon or
pipe are split (semicolon wins when both occur), each piece stripped,
re-filtered by the same 10-character rule and parsed independently;
otherwise the line is parsed whole.  Unparseable (sub)lines contribute
nothing. -/
def processLine (l : List Char) : List ParsedTransaction :=
  if ';' ∈ l || '|' ∈ l then
    let delim := if ';' ∈ l then ';' else '|'
    ((splitChar delim l).map pyStripL).filterMap
      (fun sub => if sub ≠ [] ∧ 10 ≤ sub.length then
        parse_message_line ⟨sub⟩ else none)
  else (parse_message_line ⟨l⟩).toList

/-- One iteration of the line loop of `parse_messages`: strip, drop empty
and short lines, then `processLine`. -/
def lineStep (l : List Char) : List ParsedTransaction :=
  let l := pyStripL l
  if l = [] ∨ l.length < 10 then [] else processLine l

/-- `parse_messages` in `upi_parser.py`: normalize line endings, strip,
split on newlines, and concatenate the per-line results in order. -/
def parse_messages (raw_text : String) : List ParsedTransaction :=
  let raw := replaceCR (replaceCRLF raw_text.data)
  let lines := splitChar '\n' (pyStripL raw)
  lines.flatMap lineStep

/-- The dictionary returned by `ParsedTransaction.to_dict` and
`extract_transaction_details`. -/
structure TransactionDict where
  raw_text : String
  amount : PyDec
  merchant : String
  timestamp : Option PyDate
deriving DecidableEq

/-- `extract_transaction_details` in `upi_parser.py`: parse a single
message; on failure return the zero-amount placeholder record. -/
def extract_transaction_details (raw_text : String) : TransactionDict :=
  match parse_message_line raw_text with
  | some p => ⟨p.raw_text, p.amount, p.merchant, p.timestamp⟩
  | none => ⟨raw_text, 0.0, "Unknown", none⟩

/-! `category_mapper.py`: the keyword table and `map_category`. -/

/-- `CATEGORY_KEYWORDS` in `category_mapper.py`: the ordered category
table.  Python dicts preserve insertion order, modelled as an association
list. -/
def CATEGORY_KEYWORDS : List (String × List String) :=
  [ ("Food",
     ["zomato", "swiggy", "food", "restaurant", "cafe", "pizza", "burger",
      "dominos", "mcdonald", "kfc", "subway", "starbucks", "dunkin",
      "barbeque", "dining", "eatery", "kitchen", "biryani", "canteen",
      "mess", "dhaba", "tiffin", "lunch", "breakfast", "dinner", "snacks"]),
    ("Travel",
     ["ola", "uber", "rapido", "cab", "taxi", "metro", "railway", "irctc",
      "flight", "airline", "indigo", "spicejet", "goair", "vistara",
      "bus", "redbus", "train", "makemytrip", "yatra", "cleartrip",
      "travel", "booking", "hotel", "oyo", "petrol", "fuel", "parking"]),
    ("Bills",
     ["electricity", "electric", "water", "gas", "bill", "recharge",
      "mobile", "airtel", "jio", "vi", "vodafone", "broadband", "wifi",
      "internet", "postpaid", "utility", "bsnl", "tata sky", "dish tv",
      "dth", "prepaid", "telephone"]),
    ("Shopping",
     ["amazon", "flipkart", "myntra", "ajio", "shopping", "store",
      "mall", "retail", "fashion", "clothing", "shoes", "accessories",
      "electronics", "gadgets", "meesho", "snapdeal", "nykaa", "lifestyle",
      "shoppers stop", "pantaloons", "westside"]),
    ("Groceries",
     ["grocery", "supermarket", "mart", "bigbasket", "grofers", "blinkit",
      "dunzo", "instamart", "zepto", "jiomart", "dmart", "reliance fresh",
      "more", "vegetables", "fruits", "kirana", "provisions"]),
    ("Entertainment",
     ["netflix", "prime", "hotstar", "disney", "sony liv", "zee5",
      "entertainment", "movie", "cinema", "pvr", "inox", "theatre",
      "spotify", "youtube", "gaana", "music", "gaming", "game",
      "concert", "event", "show", "storytv", "sony", "ott", "streaming",
      "subscription", "jio tv", "airtel tv"]),
    ("Education",
     ["education", "course", "tuition", "school", "college", "university",
      "udemy", "coursera", "byju", "unacademy", "vedantu", "learning",
      "books", "stationery", "exam", "fees", "institute", "academy"]),
    ("Health",
     ["hospital", "clinic", "doctor", "medical", "pharmacy", "medicine",
      "health", "apollo", "fortis", "max", "medanta", "pharma",
      "diagnostic", "lab", "test", "gym", "fitness", "cult fit",
      "wellness", "dental", "physiotherapy"]) ]

/-- The combined lowercase search string of `map_category`: the raw text,
plus the merchant when it is truthy (non-`None`, non-empty) and not the
`"Unknown"` sentinel. -/
def categorySearchText (raw_text : String) (merchant : Option String) :
    String :=
  pyLower raw_text ++
    (match merchant with
     | some m => if m ≠ "" ∧ m ≠ "Unknown" then " " ++ pyLower m else ""
     | none => "")

/-- Whether a category row matches: some keyword of the row is contained
(case-insensitively) in the search string.  The Python inner loop `break`s
on the first matching keyword, which is exactly `List.any`. -/
def categoryMatches (text_to_check : String) (row : String × List String) :
    Bool :=
  row.2.any (fun kw => isSubL (pyLower kw).data text_to_check.data)

/-- `map_category` over an explicit table (the Python function reads the
module-global `CATEGORY_KEYWORDS`; the table is passed explicitly here so
that runtime extensions via `add_category_keywords` can be expressed).
`matched_categories` collects, in table order, every category with a
keyword hit; the result is its first element, or `"Others"`. -/
def map_categoryWith (tbl : List (String × List String)) (raw_text : String)
    (merchant : Option String) : String :=
  let text_to_check := categorySearchText raw_text merchant
  let matched_categories :=
    (tbl.filter (categoryMatches text_to_check)).map (fun p => p.1)
  match matched_categories with
  | c :: _ => c
  | [] => "Others"

/-- `map_category` in `category_mapper.py` (against the static table). -/
def map_category (raw_text : String) (merchant : Option String) : String :=
  map_categoryWith CATEGORY_KEYWORDS raw_text merchant

/-- `add_category_keywords` in `category_mapper.py`, as a function from
table to table: a missing category is first inserted at the end with an
empty list (Python dict insertion order), then the keywords are appended to
the category's list. -/
def add_category_keywords (tbl : List (String × List String))
    (category : String) (keywords : List String) :
    List (String × List String) :=
  let tbl := if tbl.any (fun p => p.1 = category) then tbl
             else tbl ++ [(category, [])]
  tbl.map (fun p => if p.1 = category then (p.1, p.2 ++ keywords) else p)

/-- Modelled from the spec's words (refinement target for the category
mapper): the first category in the table's declared order having at least
one keyword contained case-insensitively in the combined text-plus-merchant
string, else the sentinel `"Others"`. -/
def firstMatchingCategory (tbl : List (String × List String))
    (raw_text : String) (merchant : Option String) : String :=
  match tbl.find? (categoryMatches (categorySearchText raw_text merchant)) with
  | some p => p.1
  | none => "Others"

/-! Helper lemmas. -/

/-- A non-positive `PyDec` has zero mantissa; hence not-nonpositive means
positive. -/
theorem PyDec.pos_of_not_le {a : PyDec} (h : ¬ a ≤ 0) : 0 < a := by
  have h' : ¬ a.mant * 10 ^ 0 ≤ 0 * 10 ^ a.exp := h
  show 0 * 10 ^ a.exp < a.mant * 10 ^ 0
  simp only [pow_zero, Nat.mul_one, Nat.zero_mul] at *
  omega

/-- Any transaction produced by `parse_message_line` carries the normalized
line as `raw_text` and a positive amount. -/
theorem parse_message_line_spec {line : String} {t : ParsedTransaction}
    (h : parse_message_line line = some t) :
    t.raw_text = normalize_text line ∧ 0 < t.amount := by
  simp only [parse_message_line] at h
  split at h
  · exact absurd h (by simp)
  · split at h
    · exact absurd h (by simp)
    · split at h
      · exact absurd h (by simp)
      · rename_i hle
        injection h with h
        subst h
        exact ⟨rfl, PyDec.pos_of_not_le hle⟩

/-- Every transaction in the output of `parse_messages` comes from a
successful `parse_message_line` call. -/
theorem parse_messages_mem {raw : String} {t : ParsedTransaction}
    (ht : t ∈ parse_messages raw) :
    ∃ l, parse_message_line l = some t := by
  simp only [parse_messages] at ht
  rw [List.mem_flatMap] at ht
  obtain ⟨l, -, hstep⟩ := ht
  simp only [lineStep] at hstep
  split at hstep
  · simp at hstep
  · simp only [processLine] at hstep
    split at hstep
    · rw [List.mem_filterMap] at hstep
      obtain ⟨sub, -, hsub⟩ := hstep
      split at hsub
      · exact ⟨_, hsub⟩
      · exact absurd hsub (by simp)
    · cases hp : parse_message_line ⟨pyStripL l⟩ with
      | none => rw [hp] at hstep; simp at hstep
      | some t2 =>
        rw [hp] at hstep
        simp only [Option.toList, List.mem_singleton] at hstep
        exact ⟨_, hstep ▸ hp⟩

/-! Claim theorems. -/

/-- C3: the amount extractor, trying its ordered pattern list
first-match-first and stripping comma separators from the captured numeric
group, maps `"Rs. 1,234.56"` to `1234.56`, `"₹1,299"` to `1299.0`, and
`"INR 219.00"` to `219.0`. -/
theorem extract_amount_round_trip :
    extract_amount "Rs. 1,234.56" = some (1234.56 : PyDec) ∧
    extract_amount "₹1,299" = some (1299.0 : PyDec) ∧
    extract_amount "INR 219.00" = some (219.0 : PyDec) := by
  decide

/-- C4: the date extractor canonicalizes matched dates to ISO `YYYY-MM-DD`,
expanding two-digit years to the 2000s when at most 50 and to the 1900s
otherwise: `"20-11-2025"` gives `"2025-11-20"`, `"05Nov25"` gives
`"2025-11-05"`, `"Nov 20, 2025"` gives `"2025-11-20"`; the boundary
instances `"05Nov50"` and `"05Nov51"` exhibit both sides of the two-digit
year rule. -/
theorem extract_date_canonicalizes :
    extract_date "20-11-2025" = some "2025-11-20" ∧
    extract_date "05Nov25" = some "2025-11-05" ∧
    extract_date "Nov 20, 2025" = some "2025-11-20" ∧
    extract_date "05Nov50" = some "2050-11-05" ∧
    extract_date "05Nov51" = some "1951-11-05" := by
  decide

/-- C7: `parse_message_line` is a total function whose only outcomes are
`none` or a transaction with positive amount — amount- and date-parsing
failures are absorbed locally (next pattern, `None` timestamp) and never
escape. -/
theorem parse_message_line_total (line : String) :
    parse_message_line line = none ∨
    ∃ t, parse_message_line line = some t ∧ 0 < t.amount := by
  cases h : parse_message_line line with
  | none => exact Or.inl rfl
  | some t => exact Or.inr ⟨t, rfl, (parse_message_line_spec h).2⟩

/-- C8 (counterexample): the emitted `raw_text` is not always the source
line as it appeared in the input — `parse_message_line` stores the
whitespace-normalized line, and on `"Rs.  10 paid"` (two spaces) the two
differ. -/
theorem raw_text_not_exact_source_line :
    ¬ ∀ (line : String) (t : ParsedTransaction),
        parse_message_line line = some t → t.raw_text = line := by
  intro h
  have h2 := h "Rs.  10 paid"
    ⟨"Rs. 10 paid", ⟨10, 0⟩, "Unknown", none⟩ (by decide)
  exact absurd h2 (by decide)

/-- C8 (amended): for every emitted `ParsedTransaction`, `raw_text` equals
the whitespace-normalized form (runs collapsed to single spaces, ends
trimmed) of the source line, not the line as it appeared in the input. -/
theorem raw_text_is_normalized_line (line : String) (t : ParsedTransaction)
    (h : parse_message_line line = some t) :
    t.raw_text = normalize_text line :=
  (parse_message_line_spec h).1

/-- C8 (amended, witness): the amended claim at `"Rs.  10 paid"`. -/
theorem raw_text_is_normalized_line_witness :
    (⟨"Rs. 10 paid", ⟨10, 0⟩, "Unknown", none⟩ : ParsedTransaction).raw_text =
      normalize_text "Rs.  10 paid" :=
  raw_text_is_normalized_line "Rs.  10 paid" _ (by decide)

/-- C9: whenever `parse_message_line` rejects the input,
`extract_transaction_details` still returns a record with amount `0.0`,
merchant `"Unknown"`, timestamp `None`, and the original input as
`raw_text`. -/
theorem extract_transaction_details_fallback (raw_text : String)
    (h : parse_message_line raw_text = none) :
    extract_transaction_details raw_text =
      ⟨raw_text, 0.0, "Unknown", none⟩ := by
  simp only [extract_transaction_details, h]

/-- C9 (witness): the fallback record at `"just a random note"`. -/
theorem extract_transaction_details_fallback_witness :
    extract_transaction_details "just a random note" =
      ⟨"just a random note", 0.0, "Unknown", none⟩ :=
  extract_transaction_details_fallback "just a random note" (by decide)

/-- C6: `parse_messages` feeds every newline-separated line through
`lineStep`, and `lineStep` drops any line that trims to empty or to fewer
than 10 characters before any extraction is attempted. -/
theorem short_lines_dropped :
    (∀ raw : String,
      parse_messages raw =
        (splitChar '\n' (pyStripL (replaceCR (replaceCRLF raw.data)))).flatMap
          lineStep) ∧
    (∀ l : List Char,
      pyStripL l = [] ∨ (pyStripL l).length < 10 → lineStep l = []) := by
  constructor
  · intro raw
    rfl
  · intro l h
    simp only [lineStep]
    rw [if_pos h]

/-- C6 (witness): the two-space-padded line `"  Rs. 12 "` trims to 6
characters and contributes nothing. -/
theorem short_lines_dropped_witness : lineStep "  Rs. 12 ".data = [] :=
  short_lines_dropped.2 "  Rs. 12 ".data (by decide)

/-- C1: a line whose extracted amount is missing or non-positive makes
`parse_message_line` return `none`, and consequently every transaction
emitted by `parse_messages` has a positive amount; such lines simply
contribute nothing to the output. -/
theorem no_amount_means_no_record :
    (∀ line : String,
      (extract_amount (normalize_text line) = none ∨
        ∃ a, extract_amount (normalize_text line) = some a ∧ a ≤ 0) →
      parse_message_line line = none) ∧
    (∀ (raw : String) (t : ParsedTransaction),
      t ∈ parse_messages raw → 0 < t.amount) := by
  constructor
  · intro line hA
    simp only [parse_message_line]
    split
    · rfl
    · rcases hA with h1 | ⟨a, ha, hle⟩
      · rw [h1]
      · rw [ha]
        exact if_pos hle
  · intro raw t ht
    obtain ⟨l, hl⟩ := parse_messages_mem ht
    exact (parse_message_line_spec hl).2

/-- C1 (witness): `"no amount in this line"` yields no record, and the one
transaction parsed from `"Rs. 15 paid today"` has positive amount. -/
theorem no_amount_means_no_record_witness :
    parse_message_line "no amount in this line" = none ∧
    0 < (⟨"Rs. 15 paid today", ⟨15, 0⟩, "Unknown", none⟩ :
          ParsedTransaction).amount :=
  ⟨no_amount_means_no_record.1 "no amount in this line" (Or.inl (by decide)),
   no_amount_means_no_record.2 "Rs. 15 paid today" _ (by decide)⟩

/-- The head of the categories collected in table order equals the first
table row satisfying the match predicate. -/
theorem head_filter_eq_find (p : String × List String → Bool) :
    ∀ l : List (String × List String),
      (match (l.filter p).map Prod.fst with
       | c :: _ => c
       | [] => "Others") =
      (match l.find? p with
       | some x => x.1
       | none => "Others") := by
  intro l
  induction l with
  | nil => rfl
  | cons x t ih =>
    by_cases hp : p x
    · simp [List.filter_cons, List.find?_cons_of_pos, hp]
    · simpa [List.filter_cons, List.find?_cons_of_neg, hp] using ih

/-- C2: `map_category` returns the first category in the table's declared
order (Food, Travel, Bills, Shopping, Groceries, Entertainment, Education,
Health) with at least one keyword contained case-insensitively in the
combined text-plus-merchant string, and `"Others"` when no category
matches; earlier declaration wins regardless of keyword specificity. -/
theorem map_category_first_match :
    (∀ (raw_text : String) (merchant : Option String),
      map_category raw_text merchant =
        firstMatchingCategory CATEGORY_KEYWORDS raw_text merchant) ∧
    CATEGORY_KEYWORDS.map Prod.fst =
      ["Food", "Travel", "Bills", "Shopping", "Groceries", "Entertainment",
       "Education", "Health"] := by
  constructor
  · intro raw_text merchant
    simp only [map_category, map_categoryWith, firstMatchingCategory]
    exact head_filter_eq_find _ _
  · rfl
/-- The update map of `add_category_keywords` preserves every key. -/
theorem add_update_fst (category : String) (keywords : List String)
    (p : String × List String) :
    (if p.1 = category then (p.1, p.2 ++ keywords) else p).1 = p.1 := by
  split <;> rfl

/-- The update map of `add_category_keywords`, composed with the key
projection, is the key projection. -/
theorem add_update_fst_comp (category : String) (keywords : List String) :
    (Prod.fst ∘ fun p : String × List String =>
      if p.1 = category then (p.1, p.2 ++ keywords) else p) = Prod.fst := by
  funext p
  exact add_update_fst category keywords p

/-- Looking up a different category is unaffected by the keyword update
map. -/
theorem find?_update_other (category c : String) (keywords : List String)
    (hne : c ≠ category) :
    ∀ l : List (String × List String),
      (l.map (fun p => if p.1 = category then (p.1, p.2 ++ keywords) else p)).find?
          (fun p => p.1 = c) =
        l.find? (fun p => p.1 = c) := by
  intro l
  induction l with
  | nil => rfl
  | cons x t ih =>
    by_cases hx : x.1 = category
    · have hc : ¬ x.1 = c := fun e => hne (e ▸ hx)
      rw [List.map_cons, if_pos hx]
      rw [List.find?_cons_of_neg _ (by simpa using hc)]
      rw [List.find?_cons_of_neg _ (by simpa using hc)]
      exact ih
    · rw [List.map_cons, if_neg hx]
      by_cases hcx : x.1 = c
      · rw [List.find?_cons_of_pos _ (by simpa using hcx)]
        rw [List.find?_cons_of_pos _ (by simpa using hcx)]
      · rw [List.find?_cons_of_neg _ (by simpa using hcx)]
        rw [List.find?_cons_of_neg _ (by simpa using hcx)]
        exact ih

/-- Looking up the updated category yields its old keywords with the new
ones appended. -/
theorem find?_update_self (category : String) (keywords : List String) :
    ∀ (l : List (String × List String)) (p0 : String × List String),
      l.find? (fun p => p.1 = category) = some p0 →
      (l.map (fun p => if p.1 = category then (p.1, p.2 ++ keywords) else p)).find?
          (fun p => p.1 = category) = some (p0.1, p0.2 ++ keywords) := by
  intro l
  induction l with
  | nil => intro p0 h; cases h
  | cons x t ih =>
    intro p0 h
    by_cases hx : x.1 = category
    · rw [List.find?_cons_of_pos _ (by simpa using hx)] at h
      injection h with h
      subst h
      rw [List.map_cons, if_pos hx]
      exact List.find?_cons_of_pos _ (by simpa using hx)
    · rw [List.find?_cons_of_neg _ (by simpa using hx)] at h
      rw [List.map_cons, if_neg hx,
          List.find?_cons_of_neg _ (by simpa using hx)]
      exact ih p0 h

/-- C10: `add_category_keywords` leaves every other category's keyword list
untouched, appends the new keywords after the target category's existing
ones (starting from the empty list when the category is new), puts a new
category at the end of the table's iteration order — and `map_category`
over the extended table can then return labels outside the original fixed
enumeration. -/
theorem add_category_keywords_frame :
    (∀ (tbl : List (String × List String)) (category : String)
       (keywords : List String),
      ((add_category_keywords tbl category keywords).map Prod.fst =
        if tbl.any (fun p => p.1 = category) then tbl.map Prod.fst
        else tbl.map Prod.fst ++ [category]) ∧
      (∀ c : String, c ≠ category →
        (add_category_keywords tbl category keywords).find?
            (fun p => p.1 = c) =
          tbl.find? (fun p => p.1 = c)) ∧
      ((add_category_keywords tbl category keywords).find?
          (fun p => p.1 = category) =
        some (category,
          (match tbl.find? (fun p => p.1 = category) with
           | some p => p.2
           | none => []) ++ keywords))) ∧
    map_categoryWith (add_category_keywords CATEGORY_KEYWORDS "Pets" ["petco"])
      "order at petco" none = "Pets" := by
  constructor
  · intro tbl category keywords
    by_cases hany : tbl.any (fun p => p.1 = category) = true
    · refine ⟨?_, ?_, ?_⟩
      · simp only [add_category_keywords, if_pos hany]
        rw [List.map_map, add_update_fst_comp]
      · intro c hc
        simp only [add_category_keywords, if_pos hany]
        exact find?_update_other category c keywords hc tbl
      · simp only [add_category_keywords, if_pos hany]
        have hsome : ∃ p0, tbl.find? (fun p => p.1 = category) = some p0 := by
          rw [← Option.isSome_iff_exists, List.find?_isSome]
          exact List.any_eq_true.mp hany
        obtain ⟨p0, hp0⟩ := hsome
        rw [find?_update_self category keywords tbl p0 hp0, hp0]
        have hk : p0.1 = category := by simpa using List.find?_some hp0
        rw [hk]
    · have hkeys : ∀ a ∈ tbl, ¬ a.1 = category := by
        intro a ha he
        exact hany (List.any_eq_true.mpr ⟨a, ha, by simp [he]⟩)
      have hnone : tbl.find? (fun p => p.1 = category) = none := by
        rw [List.find?_eq_none]
        intro a ha
        simpa using hkeys a ha
      refine ⟨?_, ?_, ?_⟩
      · simp only [add_category_keywords, if_neg hany]
        rw [List.map_map, add_update_fst_comp, List.map_append]
        rfl
      · intro c hc
        simp only [add_category_keywords, if_neg hany]
        rw [List.map_append, List.find?_append,
            find?_update_other category c keywords hc tbl]
        have hcc : ¬ category = c := fun e => hc e.symm
        have h2 : ([(category, [])].map
            (fun p => if p.1 = category then (p.1, p.2 ++ keywords) else p)).find?
            (fun p => p.1 = c) = none := by
          simp [List.find?, hcc]
        rw [h2]
        cases tbl.find? (fun p => p.1 = c) <;> rfl
      · simp only [add_category_keywords, if_neg hany]
        have h1 : (tbl.map
            (fun p => if p.1 = category then (p.1, p.2 ++ keywords) else p)).find?
            (fun p => p.1 = category) = none := by
          rw [List.find?_eq_none]
          intro a ha
          obtain ⟨x, hx, rfl⟩ := List.mem_map.mp ha
          simpa [add_update_fst] using hkeys x hx
        rw [List.map_append, List.find?_append, h1, hnone]
        simp [List.find?]
  · decide

/-- C10 (witness): extending the real table with a new `"Pets"` category
leaves `"Food"` untouched and gives `"Pets"` exactly the new keywords. -/
theorem add_category_keywords_frame_witness :
    ((add_category_keywords CATEGORY_KEYWORDS "Pets" ["petco"]).find?
        (fun p => p.1 = "Food") =
      CATEGORY_KEYWORDS.find? (fun p => p.1 = "Food")) ∧
    ((add_category_keywords CATEGORY_KEYWORDS "Pets" ["petco"]).find?
        (fun p => p.1 = "Pets") =
      some ("Pets",
        (match CATEGORY_KEYWORDS.find? (fun p => p.1 = "Pets") with
         | some p => p.2
         | none => []) ++ ["petco"])) :=
  ⟨(add_category_keywords_frame.1 CATEGORY_KEYWORDS "Pets" ["petco"]).2.1
      "Food" (by decide),
   (add_category_keywords_frame.1 CATEGORY_KEYWORDS "Pets" ["petco"]).2.2⟩

/-- `dropWhile` never lengthens a list. -/
theorem dropWhile_len_le (p : Char → Bool) :
    ∀ l : List Char, (l.dropWhile p).length ≤ l.length := by
  intro l
  induction l with
  | nil => simp
  | cons c cs ih =>
    by_cases h : p c
    · simp only [List.dropWhile, h]
      exact Nat.le_succ_of_le ih
    · simp [List.dropWhile, h]

/-- Stripping never lengthens a list. -/
theorem pyStripL_len_le (l : List Char) : (pyStripL l).length ≤ l.length := by
  unfold pyStripL
  calc ((l.dropWhile pyWs).reverse.dropWhile pyWs).reverse.length
      = ((l.dropWhile pyWs).reverse.dropWhile pyWs).length := by
        rw [List.length_reverse]
    _ ≤ (l.dropWhile pyWs).reverse.length := dropWhile_len_le _ _
    _ = (l.dropWhile pyWs).length := by rw [List.length_reverse]
    _ ≤ l.length := dropWhile_len_le _ _

/-- `replace('\r\n', '\n')` is the identity without carriage returns. -/
theorem replaceCRLF_of_no_cr :
    ∀ l : List Char, '\r' ∉ l → replaceCRLF l = l := by
  intro l
  induction l with
  | nil => intro _; rfl
  | cons c cs ih =>
    intro h
    have hc : c ≠ '\r' := fun e => h (by simp [e])
    have hcs : '\r' ∉ cs := fun m => h (List.mem_cons_of_mem _ m)
    rw [replaceCRLF.eq_def]
    split
    · rename_i heq
      exact absurd heq (by simp)
    · rename_i cs2 heq
      rw [List.cons.injEq] at heq
      exact absurd heq.1 hc
    · rename_i c2 cs2 _ heq
      rw [List.cons.injEq] at heq
      obtain ⟨h1, h2⟩ := heq
      subst h1
      subst h2
      rw [ih hcs]

/-- `replace('\r', '\n')` is the identity without carriage returns. -/
theorem replaceCR_of_no_cr :
    ∀ l : List Char, '\r' ∉ l → replaceCR l = l := by
  intro l
  induction l with
  | nil => intro _; rfl
  | cons c cs ih =>
    intro h
    have hc : c ≠ '\r' := fun e => h (by simp [e])
    have hcs : '\r' ∉ cs := fun m => h (List.mem_cons_of_mem _ m)
    rw [replaceCR.eq_def]
    split
    · rename_i heq
      exact absurd heq (by simp)
    · rename_i cs2 heq
      rw [List.cons.injEq] at heq
      exact absurd heq.1 hc
    · rename_i c2 cs2 _ heq
      rw [List.cons.injEq] at heq
      obtain ⟨h1, h2⟩ := heq
      subst h1
      subst h2
      rw [ih hcs]

/-- Splitting on a character that does not occur returns the single
piece. -/
theorem splitChar_of_not_mem (sep : Char) :
    ∀ l : List Char, sep ∉ l → splitChar sep l = [l] := by
  intro l
  induction l with
  | nil => intro _; rfl
  | cons c cs ih =>
    intro h
    have hc : ¬ c = sep := fun e => h (by simp [e])
    have hcs : sep ∉ cs := fun m => h (List.mem_cons_of_mem _ m)
    simp only [splitChar, if_neg hc]
    rw [ih hcs]

/-- Splitting at exactly one occurrence of the separator gives the two
surrounding pieces. -/
theorem splitChar_append_sep (sep : Char) :
    ∀ a b : List Char, sep ∉ a →
      splitChar sep (a ++ sep :: b) = a :: splitChar sep b := by
  intro a
  induction a with
  | nil => intro b _; simp [splitChar]
  | cons c a2 ih =>
    intro b h
    have hc : ¬ c = sep := fun e => h (by simp [e])
    have ha2 : sep ∉ a2 := fun m => h (List.mem_cons_of_mem _ m)
    simp only [List.cons_append, splitChar, if_neg hc, List.append_eq]
    rw [ih b ha2]

/-- String append acts as append on the underlying character lists. -/
theorem string_data_append (a b : String) : (a ++ b).data = a.data ++ b.data :=
  rfl

/-- C5: a line containing a semicolon (or pipe) is split into sub-lines on
that delimiter — semicolon taking precedence — each sub-line re-filtered by
the same 10-character minimum-length rule and parsed independently, so one
line holding two valid semicolon-separated transactions yields two
independent records. -/
theorem semicolon_splits_line_into_transactions
    (a b : String)
    (hra : '\r' ∉ a.data) (hrb : '\r' ∉ b.data)
    (hna : '\n' ∉ a.data) (hnb : '\n' ∉ b.data)
    (hsa : ';' ∉ a.data) (hsb : ';' ∉ b.data)
    (htrim : pyStrip (a ++ ";" ++ b) = a ++ ";" ++ b)
    (hla : 10 ≤ (pyStrip a).length) (hlb : 10 ≤ (pyStrip b).length) :
    parse_messages (a ++ ";" ++ b) =
      (parse_message_line (pyStrip a)).toList ++
        (parse_message_line (pyStrip b)).toList := by
  have hdata : (a ++ ";" ++ b).data = a.data ++ ';' :: b.data := by
    rw [string_data_append, string_data_append]
    simp
  have hcr : '\r' ∉ a.data ++ ';' :: b.data := by
    intro hm
    rcases List.mem_append.mp hm with h | h
    · exact hra h
    · rcases List.mem_cons.mp h with h | h
      · exact absurd h (by decide)
      · exact hrb h
  have hlf : '\n' ∉ a.data ++ ';' :: b.data := by
    intro hm
    rcases List.mem_append.mp hm with h | h
    · exact hna h
    · rcases List.mem_cons.mp h with h | h
      · exact absurd h (by decide)
      · exact hnb h
  have hla2 : 10 ≤ (pyStripL a.data).length := hla
  have hlb2 : 10 ≤ (pyStripL b.data).length := hlb
  have hlen_a : 10 ≤ a.data.length :=
    le_trans hla2 (pyStripL_len_le a.data)
  have hstripL : pyStripL (a.data ++ ';' :: b.data) = a.data ++ ';' :: b.data := by
    have h2 : pyStripL ((a ++ ";" ++ b).data) = (a ++ ";" ++ b).data :=
      congrArg String.data htrim
    rw [hdata] at h2
    exact h2
  show (splitChar '\n'
      (pyStripL (replaceCR (replaceCRLF (a ++ ";" ++ b).data)))).flatMap
      lineStep = _
  rw [hdata, replaceCRLF_of_no_cr _ hcr, replaceCR_of_no_cr _ hcr, hstripL,
      splitChar_of_not_mem _ _ hlf]
  simp only [List.flatMap_cons, List.flatMap_nil, List.append_nil]
  simp only [lineStep]
  rw [hstripL]
  have hcond : ¬ (a.data ++ ';' :: b.data = [] ∨
      (a.data ++ ';' :: b.data).length < 10) := by
    push_neg
    constructor
    · simp
    · simp only [List.length_append, List.length_cons]
      omega
  rw [if_neg hcond]
  simp only [processLine]
  have hmem : ';' ∈ a.data ++ ';' :: b.data := by simp
  rw [if_pos (by simp [hmem])]
  rw [if_pos (by simp [hmem])]
  rw [splitChar_append_sep _ _ _ hsa, splitChar_of_not_mem _ _ hsb]
  simp only [List.map_cons, List.map_nil, List.filterMap_cons,
    List.filterMap_nil]
  have hcond_a : pyStripL a.data ≠ [] ∧ 10 ≤ (pyStripL a.data).length := by
    refine ⟨?_, hla2⟩
    intro he
    rw [he] at hla2
    simp at hla2
  have hcond_b : pyStripL b.data ≠ [] ∧ 10 ≤ (pyStripL b.data).length := by
    refine ⟨?_, hlb2⟩
    intro he
    rw [he] at hlb2
    simp at hlb2
  rw [if_pos hcond_a, if_pos hcond_b]
  simp only [pyStrip, Option.toList]
  cases parse_message_line ⟨pyStripL a.data⟩ <;>
    cases parse_message_line ⟨pyStripL b.data⟩ <;> simp

/-- C5 (witness): a concrete semicolon-packed line parses as its two
sub-lines parsed independently. -/
theorem semicolon_splits_line_into_transactions_witness :
    parse_messages ("Rs. 20 paid to Zomato" ++ ";" ++ "INR 30 debited today") =
      (parse_message_line (pyStrip "Rs. 20 paid to Zomato")).toList ++
        (parse_message_line (pyStrip "INR 30 debited today")).toList :=
  semicolon_splits_line_into_transactions "Rs. 20 paid to Zomato"
    "INR 30 debited today" (by decide) (by decide) (by decide) (by decide)
    (by decide) (by decide) (by decide) (by decide) (by decide)
